import Mathlib

/-!
Verification development for the GraphQL client devtool's adapter and
event-normalization core.

The definitions below are a shallow embedding of:
* `src/src/react-native/adapters/apollo-adapter.ts` — both adapter variants:
  the polling-based `ApolloClientAdapter` (first class in the file) and the
  link-interception `ApolloClientAdapter` (second class in the file, embedded
  here under the `Intercept` namespace);
* the `useGraphqlClientDevtool` hook (operation forwarding and recording gate);
* the shared event/data types.

Modelling conventions:
* JS `Map` objects are embedded as insertion-ordered association lists
  (`jsMapGet` / `jsMapSet` / `jsMapErase` mirror `Map.get` / `Map.set` /
  `Map.delete`; iteration order is list order, as for JS `Map`).
* Response payloads are opaque references: only (reference) equality is ever
  observed by the code (`tracked.data !== currentData`), so they are embedded
  as an abstract type with decidable equality (`Value := Nat`).
* Operation-id strings `query-${counter}-${Date.now()}` /
  `mutation-${counter}-${Date.now()}` are embedded as the structure `OpId`
  holding the kind tag and the two numeric components; the decimal components
  are recoverable from the string (a decimal numeral contains no dash), so
  string equality coincides with componentwise equality.
* The several `Date.now()` calls inside one poll tick are identified with the
  single tick instant `now`.
* Fields of `GraphQLOperation` that no claim observes (operation name, printed
  query text, variables) are omitted; `includeVariables` /
  `includeResponseData` are fixed at their defaults (`true`), which is the
  configuration all claims are stated against.
-/

namespace GraphQLDevtool

/-- Kind tag of a generated operation id (the `query-` / `mutation-` prefix of
the id string). -/
inductive OpKind
  | query
  | mutation
deriving DecidableEq, Repr

/-- Embeds the id string `query-${counter}-${time}` (resp. `mutation-…`):
the prefix together with the two numeric components. -/
structure OpId where
  kind : OpKind
  counter : Nat
  time : Nat
deriving DecidableEq, Repr

/-- Apollo's `NetworkStatus` enum. -/
inductive NetworkStatus
  | loading
  | setVariables
  | fetchMore
  | refetch
  | poll
  | ready
  | error
deriving DecidableEq, Repr

/-- `OperationStatus` from the shared types:
`'pending' | 'loading' | 'success' | 'error'`. -/
inductive OperationStatus
  | pending
  | loading
  | success
  | error
deriving DecidableEq, Repr

/-- Opaque response payload references (only equality is observed). -/
abbrev Value := Nat

/-- Opaque error values (`queryDetails.error`, mutation errors, exception
messages). Only presence/absence is observed. -/
abbrev GErr := String

/-- JS `Map.prototype.get` on an insertion-ordered association list. -/
def jsMapGet {α β : Type} [DecidableEq α] : List (α × β) → α → Option β
  | [], _ => none
  | (k', v) :: rest, k => if k' = k then some v else jsMapGet rest k

/-- JS `Map.prototype.set`: replaces the value at an existing key in place
(keeping insertion order), otherwise appends the new entry at the end. -/
def jsMapSet {α β : Type} [DecidableEq α] : List (α × β) → α → β → List (α × β)
  | [], k, v => [(k, v)]
  | (k', v') :: rest, k, v =>
    if k' = k then (k', v) :: rest else (k', v') :: jsMapSet rest k v

/-- JS `Map.prototype.delete`: removes the entry with the given key. -/
def jsMapErase {α β : Type} [DecidableEq α] : List (α × β) → α → List (α × β)
  | [], _ => []
  | (k', v) :: rest, k => if k' = k then rest else (k', v) :: jsMapErase rest k

/-- JS `a || b` (and, on absent-or-present values, `a ?? b`) for values that
are truthy exactly when present (GraphQL result objects). -/
def jsOr {α : Type} : Option α → Option α → Option α
  | some v, _ => some v
  | none, b => b

/-- One element of the array produced by `getQueries()`: the per-query
details the polling loop inspects. -/
structure QueryDetails where
  id : String
  error : Option GErr
  networkStatus : NetworkStatus
  data : Option Value
  cachedData : Option Value
deriving DecidableEq, Repr

/-- One value of the mutation store (`PrivateMutationStoreValue`): the fields
the polling loop inspects. -/
structure MutationDetails where
  loading : Bool
  error : Option GErr
deriving DecidableEq, Repr

/-- The per-query tracking record stored in `trackedQueries`.  The source
declares `operationId` optional but every write supplies it, so it is embedded
as a total field. -/
structure TrackedQuery where
  status : OperationStatus
  startTime : Nat
  data : Option Value
  error : Option GErr
  operationId : OpId
deriving DecidableEq, Repr

/-- The mutable state of the polling `ApolloClientAdapter`:
`trackedQueries`, `trackedMutations` and `operationCounter`. -/
structure AdapterState where
  trackedQueries : List (String × TrackedQuery)
  trackedMutations : List (Nat × Bool)
  operationCounter : Nat
deriving DecidableEq, Repr

/-- The status classification applied to an observed result.  The source
states this `if`/`else if` chain twice, verbatim, at `pollQueries`
(lines 169-180) and `convertQueryToOperation` (lines 441-452):
`error` when the result carries an error, `loading` when the network status is
one of the in-flight statuses, `success` otherwise. -/
def classifyStatus (error : Option GErr) (ns : NetworkStatus) : OperationStatus :=
  if error.isSome then .error
  else if ns = .loading ∨ ns = .setVariables ∨ ns = .fetchMore ∨ ns = .refetch then
    .loading
  else .success

/-- The fields of a normalized `GraphQLOperation` that the claims observe. -/
structure GraphQLOperation where
  id : OpId
  operationType : OpKind
  status : OperationStatus
  timestamp : Nat
  duration : Option Nat
  data : Option Value
  error : Option GErr
  fromCache : Bool
deriving DecidableEq, Repr

/-- `convertQueryToOperation` (polling adapter).  With the default
configuration, `data` is `responseData ?? data ?? cachedData` and `fromCache`
is `networkStatus === NetworkStatus.ready && !!cachedData`. -/
def convertQueryToOperation (q : QueryDetails) (startTime : Nat)
    (duration : Option Nat) (operationId : OpId) (responseData : Option Value) :
    GraphQLOperation :=
  { id := operationId
    operationType := .query
    status := classifyStatus q.error q.networkStatus
    timestamp := startTime
    duration := duration
    data := jsOr responseData (jsOr q.data q.cachedData)
    error := q.error
    fromCache := decide (q.networkStatus = .ready) && q.cachedData.isSome }

/-- `convertMutationToOperation` (polling adapter).  `counter` is the value of
`this.operationCounter` consumed by the `operationCounter++` in the id; the
mutation operation carries no response data and no cache flag. -/
def convertMutationToOperation (now : Nat) (counter : Nat) (m : MutationDetails) :
    GraphQLOperation :=
  { id := ⟨.mutation, counter, now⟩
    operationType := .mutation
    status := if m.error.isSome then .error else if m.loading then .loading else .success
    timestamp := now
    duration := if m.loading then none else some 100
    data := none
    error := m.error
    fromCache := false }

/-- The body of the `queries.forEach` callback in `pollQueries`: one observed
query diffed against the tracking state.  Returns the updated state together
with the operations handed to `notifyOperationCallbacks` (at most one). -/
def processQuery (now : Nat) (s : AdapterState) (q : QueryDetails) :
    AdapterState × List GraphQLOperation :=
  let currentStatus := classifyStatus q.error q.networkStatus
  match jsMapGet s.trackedQueries q.id with
  | none =>
    -- First time seeing this query - start tracking
    let uniqueOpId : OpId := ⟨.query, s.operationCounter, now⟩
    let currentData := jsOr q.data q.cachedData
    let s' : AdapterState :=
      { s with
        operationCounter := s.operationCounter + 1
        trackedQueries := jsMapSet s.trackedQueries q.id
          ⟨currentStatus, now, currentData, q.error, uniqueOpId⟩ }
    if currentStatus = .loading then
      (s', [convertQueryToOperation q now none uniqueOpId currentData])
    else
      (s', [])
  | some tracked =>
    if tracked.status ≠ currentStatus then
      -- Status changed - a state transition to track
      let currentData := jsOr q.data q.cachedData
      let (ops, newOpId, counter') :=
        if tracked.status = .loading ∧ currentStatus ≠ .loading then
          -- Loading → Success/Error: emit completed operation with duration
          ([convertQueryToOperation q tracked.startTime
              (some (now - tracked.startTime)) tracked.operationId currentData],
           tracked.operationId, s.operationCounter)
        else if currentStatus = .loading then
          -- New loading state (refetch) - generate new operation ID
          let uniqueOpId : OpId := ⟨.query, s.operationCounter, now⟩
          ([convertQueryToOperation q now none uniqueOpId currentData],
           uniqueOpId, s.operationCounter + 1)
        else
          ([], tracked.operationId, s.operationCounter)
      ({ s with
          operationCounter := counter'
          trackedQueries := jsMapSet s.trackedQueries q.id
            ⟨currentStatus,
             if currentStatus = .loading then now else tracked.startTime,
             currentData, q.error, newOpId⟩ }, ops)
    else if currentStatus = .success ∧ tracked.data ≠ jsOr q.data q.cachedData then
      -- Data changed but status stayed success - update without loading state
      let uniqueOpId : OpId := ⟨.query, s.operationCounter, now⟩
      let duration := 50
      let currentData := jsOr q.data q.cachedData
      ({ s with
          operationCounter := s.operationCounter + 1
          trackedQueries := jsMapSet s.trackedQueries q.id
            ⟨currentStatus, now, currentData, q.error, uniqueOpId⟩ },
       [convertQueryToOperation q (now - duration) (some duration) uniqueOpId
          currentData])
    else
      (s, [])

/-- The `queries.forEach` loop of `pollQueries`, in observation order. -/
def processQueries (now : Nat) (s : AdapterState) :
    List QueryDetails → AdapterState × List GraphQLOperation
  | [] => (s, [])
  | q :: rest =>
    let (s', e) := processQuery now s q
    let (s'', es) := processQueries now s' rest
    (s'', e ++ es)

/-- `pollQueries` on an already-obtained query enumeration: the diffing loop
followed by the cleanup that drops tracked queries no longer enumerated. -/
def pollQueries (now : Nat) (queries : List QueryDetails) (s : AdapterState) :
    AdapterState × List GraphQLOperation :=
  let (s', ops) := processQueries now s queries
  let currentQueryIds := queries.map (·.id)
  ({ s' with
      trackedQueries :=
        s'.trackedQueries.filter fun p => decide (p.1 ∈ currentQueryIds) },
   ops)

/-- The body of the `mutations.forEach` callback in `pollMutations`, at
positional index `index`. -/
def processMutation (now : Nat) (s : AdapterState) (index : Nat)
    (m : MutationDetails) : AdapterState × List GraphQLOperation :=
  match jsMapGet s.trackedMutations index with
  | none =>
    -- First time seeing this mutation
    let s' : AdapterState :=
      { s with trackedMutations := jsMapSet s.trackedMutations index m.loading }
    if m.loading = false then
      ({ s' with operationCounter := s'.operationCounter + 1 },
       [convertMutationToOperation now s'.operationCounter m])
    else
      (s', [])
  | some wasLoading =>
    if wasLoading = true ∧ m.loading = false then
      -- Mutation just completed
      ({ s with
          trackedMutations := jsMapSet s.trackedMutations index false
          operationCounter := s.operationCounter + 1 },
       [convertMutationToOperation now s.operationCounter m])
    else
      (s, [])

/-- The `mutations.forEach` loop of `pollMutations`, starting at `index`. -/
def processMutations (now : Nat) (s : AdapterState) (index : Nat) :
    List MutationDetails → AdapterState × List GraphQLOperation
  | [] => (s, [])
  | m :: rest =>
    let (s', e) := processMutation now s index m
    let (s'', es) := processMutations now s' (index + 1) rest
    (s'', e ++ es)

/-- `pollMutations` on an already-obtained mutation enumeration. -/
def pollMutations (now : Nat) (muts : List MutationDetails) (s : AdapterState) :
    AdapterState × List GraphQLOperation :=
  processMutations now s 0 muts

/-- `getQueries()`: its own `try`/`catch` turns any exception raised while
inspecting the client's private structures into an empty enumeration. -/
def getQueriesCaught (raw : Except GErr (List QueryDetails)) : List QueryDetails :=
  match raw with
  | .ok qs => qs
  | .error _ => []

/-- `getMutations()`: likewise catches internal-inspection failures. -/
def getMutationsCaught (raw : Except GErr (List MutationDetails)) :
    List MutationDetails :=
  match raw with
  | .ok ms => ms
  | .error _ => []

/-- One timer tick of the polling adapter at instant `now`, with the raw
(possibly throwing) observations of the client's internals:
`this.pollQueries(); this.pollMutations();`. -/
def pollTickRaw (now : Nat) (rawQ : Except GErr (List QueryDetails))
    (rawM : Except GErr (List MutationDetails)) (s : AdapterState) :
    AdapterState × List GraphQLOperation :=
  let (s1, e1) := pollQueries now (getQueriesCaught rawQ) s
  let (s2, e2) := pollMutations now (getMutationsCaught rawM) s1
  (s2, e1 ++ e2)

/-- The messages `useGraphqlClientDevtool` sends over the plugin bridge for
one tracked operation. -/
inductive DevtoolMessage
  | operationStart (operation : GraphQLOperation)
  | operationComplete (id : OpId) (data : Option Value) (duration : Nat)
      (fromCache : Bool)
  | operationError (id : OpId) (error : Option GErr) (duration : Nat)
deriving DecidableEq, Repr

/-- The `adapter.onOperation` callback installed by `useGraphqlClientDevtool`
(lines 110-139 of the hook): the recording gate drops loading operations while
paused; a loading operation becomes `operation-start`; a succeeded operation
becomes `operation-complete`; a failed one becomes `operation-error`.  (The
source's `!operation.status` disjunct is false for every populated status
string and hence drops out of the embedding.) -/
def forwardOperation (isRecording : Bool) (op : GraphQLOperation) :
    List DevtoolMessage :=
  if isRecording = false ∧ op.status = .loading then []
  else
    (if op.status = .loading then [.operationStart op] else [])
      ++ (if op.status = .success then
            [.operationComplete op.id op.data (op.duration.getD 0) op.fromCache]
          else if op.status = .error then
            [.operationError op.id op.error (op.duration.getD 0)]
          else [])

/-- Forward a batch of adapter-emitted operations through the hook. -/
def forwardAll (isRecording : Bool) (ops : List GraphQLOperation) :
    List DevtoolMessage :=
  (ops.map (forwardOperation isRecording)).flatten

/-- The observation fed to one poll tick, together with the recording flag
(`isRecordingRef.current`) in effect while its operations are forwarded. -/
structure TickInput where
  now : Nat
  isRecording : Bool
  queries : List QueryDetails
  mutations : List MutationDetails
deriving Repr

/-- One poll tick followed by forwarding through the hook: the consumer-visible
messages produced by that tick. -/
def pollTick (t : TickInput) (s : AdapterState) :
    AdapterState × List DevtoolMessage :=
  let (s1, e1) := pollQueries t.now t.queries s
  let (s2, e2) := pollMutations t.now t.mutations s1
  (s2, forwardAll t.isRecording (e1 ++ e2))

/-- A whole polling run: the consumer-visible event stream of a sequence of
ticks. -/
def runTicks (s : AdapterState) : List TickInput → AdapterState × List DevtoolMessage
  | [] => (s, [])
  | t :: ts =>
    let (s', msgs) := pollTick t s
    let (s'', msgs') := runTicks s' ts
    (s'', msgs ++ msgs')

/-- The adapter's state right after construction. -/
def initialAdapterState : AdapterState := ⟨[], [], 0⟩

/-- The operation identity a bridge message refers to. -/
def msgOpId : DevtoolMessage → OpId
  | .operationStart op => op.id
  | .operationComplete id _ _ _ => id
  | .operationError id _ _ => id

/-- Lifecycle role of a bridge message: `operation-start` is a start,
`operation-complete` and `operation-error` are terminals. -/
inductive LifecycleKind
  | start
  | terminal
deriving DecidableEq, Repr

/-- The lifecycle role of a bridge message. -/
def msgKind : DevtoolMessage → LifecycleKind
  | .operationStart _ => .start
  | .operationComplete _ _ _ _ => .terminal
  | .operationError _ _ _ => .terminal

/-- The sequence of lifecycle events observed for one identity in a message
stream. -/
def lifecycleFor (i : OpId) (msgs : List DevtoolMessage) : List LifecycleKind :=
  (msgs.filter fun m => decide (msgOpId m = i)).map msgKind

/-- A flattened schema type of the catalogue (contents opaque to the claims
about `getSchema`). -/
structure SchemaType where
  name : String
deriving DecidableEq, Repr

/-- The `GraphQLSchema` catalogue returned by `getSchema`: optional root-type
summaries and the flat `types` list. -/
structure SchemaCatalog where
  queryType : Option SchemaType
  mutationType : Option SchemaType
  subscriptionType : Option SchemaType
  types : List SchemaType
deriving DecidableEq, Repr

/-- Opaque introspection response payload (`result.data`). -/
abbrev IntroData := Value

/-- `getSchema()` of the polling adapter (the interception adapter's copy is
line-for-line identical).  `result` is the outcome of the introspection
request (`client.query` may reject), with `result.data` possibly absent;
`build` abstracts `buildClientSchema` plus the catalogue conversion, either of
which may throw inside the same `try`.  Every failure path returns the empty
catalogue `{ types: [] }` (no root summaries) instead of rejecting. -/
def getSchema (result : Except GErr (Option IntroData))
    (build : IntroData → Except GErr SchemaCatalog) : SchemaCatalog :=
  match result with
  | .error _ => { queryType := none, mutationType := none,
                  subscriptionType := none, types := [] }
  | .ok none => { queryType := none, mutationType := none,
                  subscriptionType := none, types := [] }
  | .ok (some d) =>
    match build d with
    | .error _ => { queryType := none, mutationType := none,
                    subscriptionType := none, types := [] }
    | .ok schema => schema

/-- One record of the extracted cache object.  `typename` is the record's
`__typename` discriminator when present; `fields` stands for the rest of the
record value. -/
structure CacheRecord where
  typename : Option String
  fields : Value
deriving DecidableEq, Repr

/-- A `CacheEntry` of the shared types (the fields `getCacheSnapshot`
populates). -/
structure CacheEntry where
  id : String
  key : String
  typename : Option String
  data : Option CacheRecord
  timestamp : Nat
deriving DecidableEq, Repr

/-- `getCacheSnapshot()`: `Object.entries(this.client.cache.extract())`
mapped to entries; the surrounding `try`/`catch` returns `[]` on failure.
A record value may itself be absent (`null`), in which case
`(value as any)?.__typename` is `undefined`. -/
def getCacheSnapshot (extracted : Except GErr (List (String × Option CacheRecord)))
    (now : Nat) : List CacheEntry :=
  match extracted with
  | .error _ => []
  | .ok cacheData =>
    cacheData.map fun kv =>
      { id := kv.1
        key := kv.1
        typename := kv.2.bind CacheRecord.typename
        data := kv.2
        timestamp := now }

end GraphQLDevtool

namespace GraphQLDevtool.Intercept

/-!
Embedding of the link-interception `ApolloClientAdapter` (the second class in
`apollo-adapter.ts`): the `operationMap` bookkeeping performed by the
`ApolloLink` installed in `initialize()` together with the eviction in
`notifyOperationCallbacks`.
-/

open GraphQLDevtool

/-- The value stored in `operationMap`:
`{ startTime, operation }`. -/
structure StoredOp where
  startTime : Nat
  operation : GraphQLOperation
deriving DecidableEq, Repr

/-- The `maxOperations` eviction performed at the top of
`notifyOperationCallbacks`: when the map has reached the configured maximum,
the first (oldest-inserted) entry is deleted; an empty map yields no
`firstKey` and nothing is deleted. -/
def notifyEvict (maxOperations : Nat) (m : List (String × StoredOp)) :
    List (String × StoredOp) :=
  if maxOperations ≤ m.length then
    match m with
    | [] => []
    | _ :: rest => rest
  else m

/-- The map-relevant callbacks of the devtools link: a request enters the link
(`start`: `operationMap.set` followed by `notifyOperationCallbacks`), or a
result/error arrives (`result`: when the operation is still stored,
`notifyOperationCallbacks` followed by `operationMap.delete`). -/
inductive LinkEvent
  | start (id : String) (entry : StoredOp)
  | result (id : String)

/-- Effect of one link callback on `operationMap`. -/
def stepLink (maxOperations : Nat) (m : List (String × StoredOp)) :
    LinkEvent → List (String × StoredOp)
  | .start id entry => notifyEvict maxOperations (jsMapSet m id entry)
  | .result id =>
    match jsMapGet m id with
    | some _ => jsMapErase (notifyEvict maxOperations m) id
    | none => m

/-- `operationMap` after a sequence of link callbacks. -/
def runLink (maxOperations : Nat) (m : List (String × StoredOp)) :
    List LinkEvent → List (String × StoredOp)
  | [] => m
  | ev :: evs => runLink maxOperations (stepLink maxOperations m ev) evs

end GraphQLDevtool.Intercept

namespace GraphQLDevtool

/-! ### Association-list facts about the JS `Map` embedding -/

theorem jsMapGet_set_self {α β : Type} [DecidableEq α] (m : List (α × β)) (k : α)
    (v : β) : jsMapGet (jsMapSet m k v) k = some v := by
  induction m with
  | nil => simp [jsMapGet, jsMapSet]
  | cons p rest ih =>
    obtain ⟨k', v'⟩ := p
    by_cases h : k' = k
    · simp [jsMapSet, jsMapGet, h]
    · simp [jsMapSet, jsMapGet, h, ih]

theorem jsMapSet_eq_append {α β : Type} [DecidableEq α] {m : List (α × β)} {k : α}
    (v : β) (h : jsMapGet m k = none) : jsMapSet m k v = m ++ [(k, v)] := by
  induction m with
  | nil => simp [jsMapSet]
  | cons p rest ih =>
    obtain ⟨k', v'⟩ := p
    by_cases hk : k' = k
    · simp [jsMapGet, hk] at h
    · simp only [jsMapGet, hk, if_false] at h
      simp [jsMapSet, hk, ih h]

theorem jsMapGet_eq_none_iff {α β : Type} [DecidableEq α] {m : List (α × β)}
    {k : α} : jsMapGet m k = none ↔ k ∉ m.map Prod.fst := by
  induction m with
  | nil => simp [jsMapGet]
  | cons p rest ih =>
    obtain ⟨k', v'⟩ := p
    by_cases hk : k' = k
    · simp [jsMapGet, hk]
    · simp [jsMapGet, hk, ih, Ne.symm hk]

theorem jsMapGet_mem {α β : Type} [DecidableEq α] {m : List (α × β)} {k : α}
    {v : β} (h : jsMapGet m k = some v) : (k, v) ∈ m := by
  induction m with
  | nil => simp [jsMapGet] at h
  | cons p rest ih =>
    obtain ⟨k', v'⟩ := p
    by_cases hk : k' = k
    · subst hk
      simp [jsMapGet] at h
      simp [h]
    · simp only [jsMapGet, hk, if_false] at h
      exact List.mem_cons_of_mem _ (ih h)

theorem mem_jsMapSet {α β : Type} [DecidableEq α] {m : List (α × β)} {k : α}
    {v : β} {p : α × β} (hnd : (m.map Prod.fst).Nodup)
    (hp : p ∈ jsMapSet m k v) : p = (k, v) ∨ (p ∈ m ∧ p.1 ≠ k) := by
  induction m with
  | nil =>
    simp [jsMapSet] at hp
    exact Or.inl hp
  | cons q rest ih =>
    obtain ⟨k', v'⟩ := q
    simp only [List.map_cons, List.nodup_cons] at hnd
    by_cases hk : k' = k
    · subst hk
      simp only [jsMapSet, if_pos rfl] at hp
      rcases List.mem_cons.1 hp with hp' | hp'
      · exact Or.inl hp'
      · refine Or.inr ⟨List.mem_cons_of_mem _ hp', ?_⟩
        intro hpk
        exact hnd.1 (hpk ▸ List.mem_map_of_mem Prod.fst hp')
    · simp only [jsMapSet, if_neg hk] at hp
      rcases List.mem_cons.1 hp with hp' | hp'
      · subst hp'
        exact Or.inr ⟨List.mem_cons_self _ _, hk⟩
      · rcases ih hnd.2 hp' with h | h
        · exact Or.inl h
        · exact Or.inr ⟨List.mem_cons_of_mem _ h.1, h.2⟩

theorem jsMapSet_keys_of_some {α β : Type} [DecidableEq α] {m : List (α × β)}
    {k : α} {v₀ : β} (v : β) (h : jsMapGet m k = some v₀) :
    (jsMapSet m k v).map Prod.fst = m.map Prod.fst := by
  induction m with
  | nil => simp [jsMapGet] at h
  | cons p rest ih =>
    obtain ⟨k', v'⟩ := p
    by_cases hk : k' = k
    · simp [jsMapSet, hk]
    · simp only [jsMapGet, hk, if_false] at h
      simp [jsMapSet, hk, ih h]

/-! ### Facts about per-identity lifecycle sequences -/

theorem lifecycleFor_append (i : OpId) (H H' : List DevtoolMessage) :
    lifecycleFor i (H ++ H') = lifecycleFor i H ++ lifecycleFor i H' := by
  simp [lifecycleFor]

theorem lifecycleFor_nil (i : OpId) : lifecycleFor i [] = [] := rfl

theorem lifecycleFor_single_of_ne {i : OpId} {m : DevtoolMessage}
    (h : msgOpId m ≠ i) : lifecycleFor i [m] = [] := by
  simp [lifecycleFor, h]

theorem lifecycleFor_single_of_eq {i : OpId} {m : DevtoolMessage}
    (h : msgOpId m = i) : lifecycleFor i [m] = [msgKind m] := by
  simp [lifecycleFor, h]

theorem lifecycleFor_eq_nil {i : OpId} {H : List DevtoolMessage}
    (h : ∀ m ∈ H, msgOpId m ≠ i) : lifecycleFor i H = [] := by
  induction H with
  | nil => rfl
  | cons m rest ih =>
    have hm : msgOpId m ≠ i := h m (List.mem_cons_self _ _)
    have : lifecycleFor i (rest) = [] := ih fun x hx => h x (List.mem_cons_of_mem _ hx)
    simpa [lifecycleFor, hm] using this

theorem sublist_pair_cases {α : Type} {l : List α} {a b : α}
    (h : List.Sublist l [a, b]) : l = [] ∨ l = [a] ∨ l = [b] ∨ l = [a, b] := by
  rcases List.sublist_cons_iff.1 h with h' | ⟨r, rfl, hr⟩
  · rcases List.sublist_cons_iff.1 h' with h'' | ⟨r, rfl, hr⟩
    · exact Or.inl (List.sublist_nil.1 h'')
    · rw [List.sublist_nil.1 hr]
      exact Or.inr (Or.inr (Or.inl rfl))
  · rcases List.sublist_cons_iff.1 hr with h'' | ⟨r', rfl, hr'⟩
    · rw [List.sublist_nil.1 h'']
      exact Or.inr (Or.inl rfl)
    · rw [List.sublist_nil.1 hr']
      exact Or.inr (Or.inr (Or.inr rfl))

theorem singleton_sublist_pair (k : LifecycleKind) :
    List.Sublist [k] [LifecycleKind.start, LifecycleKind.terminal] := by
  cases k
  · exact (List.nil_sublist _).cons₂ _
  · exact ((List.nil_sublist _).cons₂ _).cons _

theorem append_terminal_sublist {l : List LifecycleKind}
    (h : List.Sublist l [LifecycleKind.start, LifecycleKind.terminal])
    (hnt : LifecycleKind.terminal ∉ l) :
    List.Sublist (l ++ [LifecycleKind.terminal])
      [LifecycleKind.start, LifecycleKind.terminal] := by
  rcases sublist_pair_cases h with rfl | rfl | rfl | rfl
  · simp
  · simp
  · simp at hnt
  · simp at hnt

/-! ### Branch characterizations of `processQuery` -/

theorem processQuery_first_seen_eq {now : Nat} {s : AdapterState} {q : QueryDetails}
    (hget : jsMapGet s.trackedQueries q.id = none) :
    processQuery now s q =
      ({ s with
          operationCounter := s.operationCounter + 1
          trackedQueries := jsMapSet s.trackedQueries q.id
            ⟨classifyStatus q.error q.networkStatus, now, jsOr q.data q.cachedData,
             q.error, ⟨.query, s.operationCounter, now⟩⟩ },
       if classifyStatus q.error q.networkStatus = .loading then
         [convertQueryToOperation q now none ⟨.query, s.operationCounter, now⟩
            (jsOr q.data q.cachedData)]
       else []) := by
  simp only [processQuery, hget]
  split <;> rfl

theorem processQuery_loading_settles_eq {now : Nat} {s : AdapterState}
    {q : QueryDetails} {t : TrackedQuery}
    (hget : jsMapGet s.trackedQueries q.id = some t)
    (hl : t.status = .loading)
    (hc : classifyStatus q.error q.networkStatus ≠ .loading) :
    processQuery now s q =
      ({ s with
          trackedQueries := jsMapSet s.trackedQueries q.id
            ⟨classifyStatus q.error q.networkStatus, t.startTime,
             jsOr q.data q.cachedData, q.error, t.operationId⟩ },
       [convertQueryToOperation q t.startTime (some (now - t.startTime))
          t.operationId (jsOr q.data q.cachedData)]) := by
  have hne : t.status ≠ classifyStatus q.error q.networkStatus := by
    rw [hl]; exact fun h => hc h.symm
  simp only [processQuery, hget, if_pos hne, if_pos (And.intro hl hc), if_neg hc]

theorem processQuery_restart_eq {now : Nat} {s : AdapterState}
    {q : QueryDetails} {t : TrackedQuery}
    (hget : jsMapGet s.trackedQueries q.id = some t)
    (hnl : t.status ≠ .loading)
    (hc : classifyStatus q.error q.networkStatus = .loading) :
    processQuery now s q =
      ({ s with
          operationCounter := s.operationCounter + 1
          trackedQueries := jsMapSet s.trackedQueries q.id
            ⟨.loading, now, jsOr q.data q.cachedData, q.error,
             ⟨.query, s.operationCounter, now⟩⟩ },
       [convertQueryToOperation q now none ⟨.query, s.operationCounter, now⟩
          (jsOr q.data q.cachedData)]) := by
  simp [processQuery, hget, hc, hnl]

theorem processQuery_settled_swap_eq {now : Nat} {s : AdapterState}
    {q : QueryDetails} {t : TrackedQuery}
    (hget : jsMapGet s.trackedQueries q.id = some t)
    (hne : t.status ≠ classifyStatus q.error q.networkStatus)
    (hnl : t.status ≠ .loading)
    (hc : classifyStatus q.error q.networkStatus ≠ .loading) :
    processQuery now s q =
      ({ s with
          trackedQueries := jsMapSet s.trackedQueries q.id
            ⟨classifyStatus q.error q.networkStatus, t.startTime,
             jsOr q.data q.cachedData, q.error, t.operationId⟩ },
       []) := by
  have hno : ¬(t.status = .loading ∧ classifyStatus q.error q.networkStatus ≠ .loading) :=
    fun h => hnl h.1
  simp only [processQuery, hget, if_pos hne, if_neg hno, if_neg hc]

theorem processQuery_data_change_eq {now : Nat} {s : AdapterState}
    {q : QueryDetails} {t : TrackedQuery}
    (hget : jsMapGet s.trackedQueries q.id = some t)
    (hst : t.status = classifyStatus q.error q.networkStatus)
    (hsucc : classifyStatus q.error q.networkStatus = .success)
    (hdata : t.data ≠ jsOr q.data q.cachedData) :
    processQuery now s q =
      ({ s with
          operationCounter := s.operationCounter + 1
          trackedQueries := jsMapSet s.trackedQueries q.id
            ⟨.success, now, jsOr q.data q.cachedData, q.error,
             ⟨.query, s.operationCounter, now⟩⟩ },
       [convertQueryToOperation q (now - 50) (some 50)
          ⟨.query, s.operationCounter, now⟩ (jsOr q.data q.cachedData)]) := by
  simp [processQuery, hget, hst, hsucc, hdata]

theorem processQuery_no_change_eq {now : Nat} {s : AdapterState}
    {q : QueryDetails} {t : TrackedQuery}
    (hget : jsMapGet s.trackedQueries q.id = some t)
    (hst : t.status = classifyStatus q.error q.networkStatus)
    (hnot : ¬(classifyStatus q.error q.networkStatus = .success ∧
      t.data ≠ jsOr q.data q.cachedData)) :
    processQuery now s q = (s, []) := by
  have hne : ¬t.status ≠ classifyStatus q.error q.networkStatus := fun h => h hst
  simp only [processQuery, hget, if_neg hne, if_neg hnot]

/-! ### Forwarding facts -/

theorem forwardOperation_loading {op : GraphQLOperation}
    (h : op.status = .loading) (r : Bool) :
    forwardOperation r op = if r then [.operationStart op] else [] := by
  cases r <;> simp [forwardOperation, h]

theorem forwardOperation_success {op : GraphQLOperation}
    (h : op.status = .success) (r : Bool) :
    forwardOperation r op =
      [.operationComplete op.id op.data (op.duration.getD 0) op.fromCache] := by
  simp [forwardOperation, h]

theorem forwardOperation_errored {op : GraphQLOperation}
    (h : op.status = .error) (r : Bool) :
    forwardOperation r op =
      [.operationError op.id op.error (op.duration.getD 0)] := by
  simp [forwardOperation, h]

theorem forwardOperation_terminal {op : GraphQLOperation}
    (hs : op.status = .success ∨ op.status = .error) (r : Bool) :
    ∃ msg, forwardOperation r op = [msg] ∧ msgOpId msg = op.id ∧
      msgKind msg = .terminal := by
  rcases hs with h | h
  · exact ⟨_, forwardOperation_success h r, rfl, rfl⟩
  · exact ⟨_, forwardOperation_errored h r, rfl, rfl⟩

theorem forwardAll_nil (r : Bool) : forwardAll r [] = [] := rfl

theorem forwardAll_single (r : Bool) (op : GraphQLOperation) :
    forwardAll r [op] = forwardOperation r op := by
  simp [forwardAll]

theorem forwardAll_append (r : Bool) (a b : List GraphQLOperation) :
    forwardAll r (a ++ b) = forwardAll r a ++ forwardAll r b := by
  simp [forwardAll]

theorem classifyStatus_ne_pending (e : Option GErr) (ns : NetworkStatus) :
    classifyStatus e ns ≠ .pending := by
  unfold classifyStatus
  split
  · simp
  · split <;> simp

theorem keys_nodup_jsMapSet {α β : Type} [DecidableEq α] {m : List (α × β)}
    {k : α} (v : β) (h : (m.map Prod.fst).Nodup) :
    ((jsMapSet m k v).map Prod.fst).Nodup := by
  cases hget : jsMapGet m k with
  | none =>
    rw [jsMapSet_eq_append v hget]
    have hk : k ∉ m.map Prod.fst := jsMapGet_eq_none_iff.1 hget
    simp only [List.map_append, List.map_cons, List.map_nil]
    rw [List.nodup_append]
    exact ⟨h, List.nodup_singleton k,
      fun _ ha hak => hk (List.mem_singleton.1 hak ▸ ha)⟩
  | some v₀ => rw [jsMapSet_keys_of_some v hget]; exact h

/-! ### The lifecycle-discipline invariant of the polling tracker -/

/-- Invariant tying the adapter's tracking state to the consumer-visible
message history `H`:
* per identity, the history is a sub-sequence of `start, terminal`;
* every identity in the history, and every tracked identity, was minted with a
  counter value below the current `operationCounter`;
* a tracked query in the loading phase has not had a terminal emitted for its
  current identity;
* distinct tracked queries hold distinct identities, and tracking keys are
  unique. -/
structure TrackerInv (s : AdapterState) (H : List DevtoolMessage) : Prop where
  hist : ∀ i, List.Sublist (lifecycleFor i H)
    [LifecycleKind.start, LifecycleKind.terminal]
  histCtr : ∀ m ∈ H, (msgOpId m).counter < s.operationCounter
  trackedCtr : ∀ p ∈ s.trackedQueries, p.2.operationId.counter < s.operationCounter
  loadingNoTerminal : ∀ p ∈ s.trackedQueries,
    p.2.status = OperationStatus.loading →
    LifecycleKind.terminal ∉ lifecycleFor p.2.operationId H
  distinctIds : ∀ p ∈ s.trackedQueries, ∀ p' ∈ s.trackedQueries,
    p.1 ≠ p'.1 → p.2.operationId ≠ p'.2.operationId
  keysNodup : (s.trackedQueries.map Prod.fst).Nodup

theorem lifecycleFor_fresh {H : List DevtoolMessage} {c : Nat}
    (histCtr : ∀ m ∈ H, (msgOpId m).counter < c) {j : OpId}
    (hj : c ≤ j.counter) : lifecycleFor j H = [] :=
  lifecycleFor_eq_nil fun m hm heq =>
    Nat.lt_irrefl _ (Nat.lt_of_lt_of_le (heq ▸ histCtr m hm) hj)

/-- Invariant preservation for the branches that mint a fresh identity and
store it (first-seen registration, restart, silent data change): the counter
is bumped, and at most one message — carrying the fresh identity — is
appended, which must not be a terminal if the entry is stored as loading. -/
theorem TrackerInv.stepFreshMint {s : AdapterState} {H : List DevtoolMessage}
    (h : TrackerInv s H) (qid : String) (e : TrackedQuery)
    (ms : List DevtoolMessage)
    (hector : e.operationId.counter = s.operationCounter)
    (hms : ms = [] ∨ ∃ msg, ms = [msg] ∧ msgOpId msg = e.operationId)
    (hload : e.status = OperationStatus.loading →
      ∀ msg ∈ ms, msgKind msg ≠ LifecycleKind.terminal) :
    TrackerInv
      { s with
          operationCounter := s.operationCounter + 1
          trackedQueries := jsMapSet s.trackedQueries qid e }
      (H ++ ms) := by
  have hfresh : lifecycleFor e.operationId H = [] :=
    lifecycleFor_fresh h.histCtr (Nat.le_of_eq hector.symm)
  refine ⟨?_, ?_, ?_, ?_, ?_, ?_⟩
  · intro i
    rw [lifecycleFor_append]
    rcases hms with rfl | ⟨msg, rfl, hmsg⟩
    · rw [lifecycleFor_nil, List.append_nil]
      exact h.hist i
    · by_cases hij : i = e.operationId
      · subst hij
        rw [hfresh, lifecycleFor_single_of_eq hmsg]
        exact singleton_sublist_pair _
      · rw [lifecycleFor_single_of_ne fun hh => hij (hh.symm.trans hmsg)]
        rw [List.append_nil]
        exact h.hist i
  · intro m hm
    rcases List.mem_append.1 hm with hm | hm
    · exact Nat.lt_succ_of_lt (h.histCtr m hm)
    · rcases hms with rfl | ⟨msg, rfl, hmsg⟩
      · simp at hm
      · rcases List.mem_singleton.1 hm with rfl
        rw [hmsg, hector]
        exact Nat.lt_succ_self _
  · intro p hp
    rcases mem_jsMapSet h.keysNodup hp with rfl | ⟨hp', _⟩
    · exact lt_of_eq_of_lt hector (Nat.lt_succ_self _)
    · exact Nat.lt_succ_of_lt (h.trackedCtr p hp')
  · intro p hp hps
    rcases mem_jsMapSet h.keysNodup hp with rfl | ⟨hp', _⟩
    · rw [lifecycleFor_append, hfresh]
      rcases hms with rfl | ⟨msg, rfl, hmsg⟩
      · simp [lifecycleFor]
      · rw [lifecycleFor_single_of_eq hmsg]
        simpa using (hload hps msg (List.mem_singleton_self msg)).symm
    · have hne : p.2.operationId ≠ e.operationId := by
        intro hh
        have hlt := h.trackedCtr p hp'
        rw [hh, hector] at hlt
        exact Nat.lt_irrefl _ hlt
      have htail : lifecycleFor p.2.operationId ms = [] := by
        rcases hms with rfl | ⟨msg, rfl, hmsg⟩
        · rfl
        · exact lifecycleFor_single_of_ne fun hh => hne (hh.symm.trans hmsg)
      rw [lifecycleFor_append, htail, List.append_nil]
      exact h.loadingNoTerminal p hp' hps
  · intro p hp p' hp' hkeys
    rcases mem_jsMapSet h.keysNodup hp with rfl | ⟨hpm, hpk⟩ <;>
      rcases mem_jsMapSet h.keysNodup hp' with h2 | ⟨hpm', hpk'⟩
    · exact absurd (congrArg Prod.fst h2).symm hkeys
    · intro hh
      have hlt := h.trackedCtr p' hpm'
      rw [← hh, hector] at hlt
      exact Nat.lt_irrefl _ hlt
    · rcases h2 with rfl
      intro hh
      have hlt := h.trackedCtr p hpm
      rw [hh, hector] at hlt
      exact Nat.lt_irrefl _ hlt
    · exact h.distinctIds p hpm p' hpm' hkeys
  · exact keys_nodup_jsMapSet e h.keysNodup

/-- Invariant preservation for the branches that keep the tracked identity and
store a non-loading phase (completion of a loading query, or a settled status
swap): at most one message is appended — a terminal for the tracked identity,
allowed only when the entry was in the loading phase. -/
theorem TrackerInv.stepSettle {s : AdapterState} {H : List DevtoolMessage}
    (h : TrackerInv s H) {qid : String} {t : TrackedQuery} (e : TrackedQuery)
    (ms : List DevtoolMessage)
    (hget : jsMapGet s.trackedQueries qid = some t)
    (hid : e.operationId = t.operationId)
    (hstat : e.status ≠ OperationStatus.loading)
    (hms : ms = [] ∨ (t.status = OperationStatus.loading ∧
      ∃ msg, ms = [msg] ∧ msgOpId msg = t.operationId ∧
        msgKind msg = LifecycleKind.terminal)) :
    TrackerInv { s with trackedQueries := jsMapSet s.trackedQueries qid e }
      (H ++ ms) := by
  have htmem : (qid, t) ∈ s.trackedQueries := jsMapGet_mem hget
  refine ⟨?_, ?_, ?_, ?_, ?_, ?_⟩
  · intro i
    rw [lifecycleFor_append]
    rcases hms with rfl | ⟨htl, msg, rfl, hmsg, hkind⟩
    · rw [lifecycleFor_nil, List.append_nil]
      exact h.hist i
    · by_cases hij : i = t.operationId
      · subst hij
        rw [lifecycleFor_single_of_eq hmsg, hkind]
        exact append_terminal_sublist (h.hist _)
          (h.loadingNoTerminal (qid, t) htmem htl)
      · rw [lifecycleFor_single_of_ne fun hh => hij (hh.symm.trans hmsg),
          List.append_nil]
        exact h.hist i
  · intro m hm
    rcases List.mem_append.1 hm with hm | hm
    · exact h.histCtr m hm
    · rcases hms with rfl | ⟨htl, msg, rfl, hmsg, hkind⟩
      · simp at hm
      · rcases List.mem_singleton.1 hm with rfl
        rw [hmsg]
        exact h.trackedCtr (qid, t) htmem
  · intro p hp
    rcases mem_jsMapSet h.keysNodup hp with rfl | ⟨hp', _⟩
    · simpa [hid] using h.trackedCtr (qid, t) htmem
    · exact h.trackedCtr p hp'
  · intro p hp hps
    rcases mem_jsMapSet h.keysNodup hp with rfl | ⟨hp', hpk⟩
    · exact absurd hps hstat
    · have hne : p.2.operationId ≠ t.operationId :=
        h.distinctIds p hp' (qid, t) htmem hpk
      have htail : lifecycleFor p.2.operationId ms = [] := by
        rcases hms with rfl | ⟨htl, msg, rfl, hmsg, hkind⟩
        · rfl
        · exact lifecycleFor_single_of_ne fun hh => hne (hh.symm.trans hmsg)
      rw [lifecycleFor_append, htail, List.append_nil]
      exact h.loadingNoTerminal p hp' hps
  · intro p hp p' hp' hkeys
    rcases mem_jsMapSet h.keysNodup hp with rfl | ⟨hpm, hpk⟩ <;>
      rcases mem_jsMapSet h.keysNodup hp' with h2 | ⟨hpm', hpk'⟩
    · exact absurd (congrArg Prod.fst h2).symm hkeys
    · simpa [hid] using h.distinctIds (qid, t) htmem p' hpm' hkeys
    · rcases h2 with rfl
      simpa [hid] using h.distinctIds p hpm (qid, t) htmem hkeys
    · exact h.distinctIds p hpm p' hpm' hkeys
  · exact keys_nodup_jsMapSet e h.keysNodup

/-- Invariant preservation for a mutation-poll emission: a single terminal
message under a freshly minted (mutation) identity, with a counter bump; the
query-tracking map is untouched. -/
theorem TrackerInv.freshTerminal {s : AdapterState} {H : List DevtoolMessage}
    (h : TrackerInv s H) (tm : List (Nat × Bool)) (msg : DevtoolMessage)
    (hc : (msgOpId msg).counter = s.operationCounter) :
    TrackerInv
      { s with
          trackedMutations := tm
          operationCounter := s.operationCounter + 1 }
      (H ++ [msg]) := by
  have hfresh : lifecycleFor (msgOpId msg) H = [] :=
    lifecycleFor_fresh h.histCtr (Nat.le_of_eq hc.symm)
  refine ⟨?_, ?_, ?_, ?_, ?_, ?_⟩
  · intro i
    rw [lifecycleFor_append]
    by_cases hij : i = msgOpId msg
    · subst hij
      rw [hfresh, lifecycleFor_single_of_eq rfl]
      exact singleton_sublist_pair _
    · rw [lifecycleFor_single_of_ne fun hh => hij hh.symm, List.append_nil]
      exact h.hist i
  · intro m hm
    rcases List.mem_append.1 hm with hm | hm
    · exact Nat.lt_succ_of_lt (h.histCtr m hm)
    · rcases List.mem_singleton.1 hm with rfl
      exact lt_of_eq_of_lt hc (Nat.lt_succ_self _)
  · intro p hp
    exact Nat.lt_succ_of_lt (h.trackedCtr p hp)
  · intro p hp hps
    have hne : p.2.operationId ≠ msgOpId msg := by
      intro hh
      have hlt := h.trackedCtr p hp
      rw [hh, hc] at hlt
      exact Nat.lt_irrefl _ hlt
    rw [lifecycleFor_append, lifecycleFor_single_of_ne hne.symm, List.append_nil]
    exact h.loadingNoTerminal p hp hps
  · exact h.distinctIds
  · exact h.keysNodup

/-- The invariant ignores the mutation-tracking map. -/
theorem TrackerInv.withMutations {s : AdapterState} {H : List DevtoolMessage}
    (h : TrackerInv s H) (tm : List (Nat × Bool)) :
    TrackerInv { s with trackedMutations := tm } H :=
  ⟨h.hist, h.histCtr, h.trackedCtr, h.loadingNoTerminal, h.distinctIds,
   h.keysNodup⟩

/-- The cleanup phase of `pollQueries` (dropping no-longer-enumerated
queries) preserves the invariant. -/
theorem TrackerInv.filterTracked {s : AdapterState} {H : List DevtoolMessage}
    (h : TrackerInv s H) (pred : String × TrackedQuery → Bool) :
    TrackerInv { s with trackedQueries := s.trackedQueries.filter pred } H := by
  refine ⟨h.hist, h.histCtr, ?_, ?_, ?_, ?_⟩
  · intro p hp
    exact h.trackedCtr p (List.mem_of_mem_filter hp)
  · intro p hp hps
    exact h.loadingNoTerminal p (List.mem_of_mem_filter hp) hps
  · intro p hp p' hp' hk
    exact h.distinctIds p (List.mem_of_mem_filter hp) p'
      (List.mem_of_mem_filter hp') hk
  · exact List.Nodup.sublist (List.Sublist.map Prod.fst (List.filter_sublist _))
      h.keysNodup

/-- Processing one observed query preserves the lifecycle-discipline
invariant, whatever the recording flag. -/
theorem processQuery_inv (r : Bool) (now : Nat) (s : AdapterState)
    (q : QueryDetails) (H : List DevtoolMessage) (h : TrackerInv s H) :
    TrackerInv (processQuery now s q).1
      (H ++ forwardAll r (processQuery now s q).2) := by
  cases hget : jsMapGet s.trackedQueries q.id with
  | none =>
    rw [processQuery_first_seen_eq hget]
    by_cases hc : classifyStatus q.error q.networkStatus = .loading
    · rw [if_pos hc]
      have hop : (convertQueryToOperation q now none
          ⟨.query, s.operationCounter, now⟩ (jsOr q.data q.cachedData)).status
            = OperationStatus.loading := hc
      rw [forwardAll_single, forwardOperation_loading hop r]
      cases r
      · exact h.stepFreshMint q.id _ [] rfl (Or.inl rfl)
          (fun _ msg hm => by simp at hm)
      · exact h.stepFreshMint q.id _ [.operationStart _] rfl
          (Or.inr ⟨_, rfl, rfl⟩)
          (fun _ msg hm => by
            rcases List.mem_singleton.1 hm with rfl
            simp [msgKind])
    · rw [if_neg hc]
      exact h.stepFreshMint q.id _ [] rfl (Or.inl rfl)
        (fun _ msg hm => by simp at hm)
  | some t =>
    by_cases ht : t.status = .loading
    · by_cases hc : classifyStatus q.error q.networkStatus = .loading
      · have hnot : ¬(classifyStatus q.error q.networkStatus = .success ∧
            t.data ≠ jsOr q.data q.cachedData) := by
          rintro ⟨hs, -⟩
          rw [hc] at hs
          cases hs
        rw [processQuery_no_change_eq hget (ht.trans hc.symm) hnot]
        simpa [forwardAll_nil] using h
      · rw [processQuery_loading_settles_eq hget ht hc]
        have hterm : (convertQueryToOperation q t.startTime
            (some (now - t.startTime)) t.operationId
            (jsOr q.data q.cachedData)).status = OperationStatus.success ∨
          (convertQueryToOperation q t.startTime (some (now - t.startTime))
            t.operationId (jsOr q.data q.cachedData)).status
              = OperationStatus.error := by
          have hnp := classifyStatus_ne_pending q.error q.networkStatus
          cases hcs : classifyStatus q.error q.networkStatus with
          | pending => exact absurd hcs hnp
          | loading => exact absurd hcs hc
          | success => exact Or.inl (by simp [convertQueryToOperation, hcs])
          | error => exact Or.inr (by simp [convertQueryToOperation, hcs])
        obtain ⟨msg, hfwd, hmid, hmk⟩ := forwardOperation_terminal hterm r
        rw [forwardAll_single, hfwd]
        exact h.stepSettle _ [msg] hget rfl hc (Or.inr ⟨ht, msg, rfl, hmid, hmk⟩)
    · by_cases hc : classifyStatus q.error q.networkStatus = .loading
      · rw [processQuery_restart_eq hget ht hc]
        have hop : (convertQueryToOperation q now none
            ⟨.query, s.operationCounter, now⟩ (jsOr q.data q.cachedData)).status
              = OperationStatus.loading := hc
        rw [forwardAll_single, forwardOperation_loading hop r]
        cases r
        · exact h.stepFreshMint q.id _ [] rfl (Or.inl rfl)
            (fun _ msg hm => by simp at hm)
        · exact h.stepFreshMint q.id _ [.operationStart _] rfl
            (Or.inr ⟨_, rfl, rfl⟩)
            (fun _ msg hm => by
              rcases List.mem_singleton.1 hm with rfl
              simp [msgKind])
      · by_cases hne : t.status = classifyStatus q.error q.networkStatus
        · by_cases hd : t.data = jsOr q.data q.cachedData
          · have hnot : ¬(classifyStatus q.error q.networkStatus = .success ∧
                t.data ≠ jsOr q.data q.cachedData) := fun hh => hh.2 hd
            rw [processQuery_no_change_eq hget hne hnot]
            simpa [forwardAll_nil] using h
          · by_cases hs : classifyStatus q.error q.networkStatus = .success
            · rw [processQuery_data_change_eq hget hne hs hd]
              have hop : (convertQueryToOperation q (now - 50) (some 50)
                  ⟨.query, s.operationCounter, now⟩
                  (jsOr q.data q.cachedData)).status
                    = OperationStatus.success := hs
              rw [forwardAll_single, forwardOperation_success hop r]
              exact h.stepFreshMint q.id _ [_] rfl (Or.inr ⟨_, rfl, rfl⟩)
                (fun hl => absurd hl (by simp))
            · have hnot : ¬(classifyStatus q.error q.networkStatus = .success ∧
                  t.data ≠ jsOr q.data q.cachedData) := fun hh => hs hh.1
              rw [processQuery_no_change_eq hget hne hnot]
              simpa [forwardAll_nil] using h
        · rw [processQuery_settled_swap_eq hget hne ht hc]
          exact h.stepSettle _ [] hget rfl hc (Or.inl rfl)

/-- The whole query-diffing loop preserves the invariant. -/
theorem processQueries_inv (r : Bool) (now : Nat) (s : AdapterState)
    (qs : List QueryDetails) (H : List DevtoolMessage) (h : TrackerInv s H) :
    TrackerInv (processQueries now s qs).1
      (H ++ forwardAll r (processQueries now s qs).2) := by
  induction qs generalizing s H with
  | nil => simpa [processQueries, forwardAll_nil] using h
  | cons q rest ih =>
    have h1 := processQuery_inv r now s q H h
    have h2 := ih (processQuery now s q).1
      (H ++ forwardAll r (processQuery now s q).2) h1
    show TrackerInv (processQueries now (processQuery now s q).1 rest).1
      (H ++ forwardAll r ((processQuery now s q).2 ++
        (processQueries now (processQuery now s q).1 rest).2))
    rw [forwardAll_append, ← List.append_assoc]
    exact h2

/-- A full `pollQueries` call (diffing loop plus cleanup) preserves the
invariant. -/
theorem pollQueries_inv (r : Bool) (now : Nat) (s : AdapterState)
    (qs : List QueryDetails) (H : List DevtoolMessage) (h : TrackerInv s H) :
    TrackerInv (pollQueries now qs s).1
      (H ++ forwardAll r (pollQueries now qs s).2) :=
  (processQueries_inv r now s qs H h).filterTracked _

/-- Processing one mutation-store entry preserves the invariant. -/
theorem processMutation_inv (r : Bool) (now : Nat) (s : AdapterState)
    (index : Nat) (m : MutationDetails) (H : List DevtoolMessage)
    (h : TrackerInv s H) :
    TrackerInv (processMutation now s index m).1
      (H ++ forwardAll r (processMutation now s index m).2) := by
  have hterm : ∀ c : Nat, m.loading = false →
      (convertMutationToOperation now c m).status = OperationStatus.success ∨
      (convertMutationToOperation now c m).status = OperationStatus.error := by
    intro c hl
    cases he : m.error with
    | none => exact Or.inl (by simp [convertMutationToOperation, he, hl])
    | some ge => exact Or.inr (by simp [convertMutationToOperation, he])
  cases hget : jsMapGet s.trackedMutations index with
  | none =>
    simp only [processMutation, hget]
    by_cases hl : m.loading = false
    · rw [if_pos hl]
      obtain ⟨msg, hfwd, hmid, hmk⟩ :=
        forwardOperation_terminal (hterm s.operationCounter hl) r
      rw [forwardAll_single, hfwd]
      exact h.freshTerminal _ msg (by rw [hmid]; rfl)
    · rw [if_neg hl]
      simpa [forwardAll_nil] using h.withMutations _
  | some wasLoading =>
    simp only [processMutation, hget]
    by_cases hcond : wasLoading = true ∧ m.loading = false
    · rw [if_pos hcond]
      obtain ⟨msg, hfwd, hmid, hmk⟩ :=
        forwardOperation_terminal (hterm s.operationCounter hcond.2) r
      rw [forwardAll_single, hfwd]
      exact h.freshTerminal _ msg (by rw [hmid]; rfl)
    · rw [if_neg hcond]
      simpa [forwardAll_nil] using h

/-- The whole mutation loop preserves the invariant. -/
theorem processMutations_inv (r : Bool) (now : Nat) (s : AdapterState)
    (index : Nat) (ms : List MutationDetails) (H : List DevtoolMessage)
    (h : TrackerInv s H) :
    TrackerInv (processMutations now s index ms).1
      (H ++ forwardAll r (processMutations now s index ms).2) := by
  induction ms generalizing s index H with
  | nil => simpa [processMutations, forwardAll_nil] using h
  | cons m rest ih =>
    have h1 := processMutation_inv r now s index m H h
    have h2 := ih (processMutation now s index m).1 (index + 1)
      (H ++ forwardAll r (processMutation now s index m).2) h1
    show TrackerInv
      (processMutations now (processMutation now s index m).1 (index + 1) rest).1
      (H ++ forwardAll r ((processMutation now s index m).2 ++
        (processMutations now (processMutation now s index m).1 (index + 1) rest).2))
    rw [forwardAll_append, ← List.append_assoc]
    exact h2

/-- One full poll tick (queries, then mutations, then forwarding through the
hook) preserves the invariant. -/
theorem pollTick_inv (t : TickInput) (s : AdapterState)
    (H : List DevtoolMessage) (h : TrackerInv s H) :
    TrackerInv (pollTick t s).1 (H ++ (pollTick t s).2) := by
  have h1 := pollQueries_inv t.isRecording t.now s t.queries H h
  have h2 := processMutations_inv t.isRecording t.now
    (pollQueries t.now t.queries s).1 0 t.mutations
    (H ++ forwardAll t.isRecording (pollQueries t.now t.queries s).2) h1
  show TrackerInv
    (processMutations t.now (pollQueries t.now t.queries s).1 0 t.mutations).1
    (H ++ forwardAll t.isRecording ((pollQueries t.now t.queries s).2 ++
      (processMutations t.now (pollQueries t.now t.queries s).1 0 t.mutations).2))
  rw [forwardAll_append, ← List.append_assoc]
  exact h2

/-- A whole polling run preserves the invariant. -/
theorem runTicks_inv (ts : List TickInput) (s : AdapterState)
    (H : List DevtoolMessage) (h : TrackerInv s H) :
    TrackerInv (runTicks s ts).1 (H ++ (runTicks s ts).2) := by
  induction ts generalizing s H with
  | nil => simpa [runTicks] using h
  | cons t rest ih =>
    have h1 := pollTick_inv t s H h
    have h2 := ih (pollTick t s).1 (H ++ (pollTick t s).2) h1
    show TrackerInv (runTicks (pollTick t s).1 rest).1
      (H ++ ((pollTick t s).2 ++ (runTicks (pollTick t s).1 rest).2))
    rw [← List.append_assoc]
    exact h2

/-- The freshly constructed adapter with an empty history satisfies the
invariant. -/
theorem trackerInv_initial : TrackerInv initialAdapterState [] := by
  refine ⟨?_, ?_, ?_, ?_, ?_, ?_⟩ <;> simp [initialAdapterState, lifecycleFor]

/-! ### Claim theorems -/

/-- Claim C1, counterexample to the claim as stated.  The claim requires
*exactly one* `operation-start` per identity appearing in the delivered
stream.  In this two-tick run (a query first observed already settled, whose
data value then changes silently), the whole delivered stream is a single
`operation-complete` for identity `query-1-200`: that identity has a terminal
but *zero* starts, so "exactly one operation-start" is false. -/
theorem polling_terminal_without_start :
    (runTicks initialAdapterState
      [⟨100, true, [⟨"q1", none, .ready, some 1, none⟩], []⟩,
       ⟨200, true, [⟨"q1", none, .ready, some 2, none⟩], []⟩]).2
        = [DevtoolMessage.operationComplete ⟨OpKind.query, 1, 200⟩ (some 2) 50 false]
    ∧ lifecycleFor ⟨OpKind.query, 1, 200⟩
        (runTicks initialAdapterState
          [⟨100, true, [⟨"q1", none, .ready, some 1, none⟩], []⟩,
           ⟨200, true, [⟨"q1", none, .ready, some 2, none⟩], []⟩]).2
        = [LifecycleKind.terminal] := by
  decide

/-- Claim C1 (amended).  For every operation identity `i`, the event stream a
polling run delivers to consumers contains *at most one* `operation-start` for
`i` and at most one terminal event (`operation-complete` or
`operation-error`) for `i`, and the start precedes the terminal whenever both
occur: the per-identity lifecycle sequence is a sub-sequence of
`start, terminal`.  (The original "exactly one start" fails: silent
data-change updates emit a terminal under a fresh identity with no start.) -/
theorem polling_lifecycle_discipline (ticks : List TickInput) (i : OpId) :
    List.Sublist (lifecycleFor i (runTicks initialAdapterState ticks).2)
      [LifecycleKind.start, LifecycleKind.terminal] := by
  have h := runTicks_inv ticks initialAdapterState [] trackerInv_initial
  simpa using h.hist i

/-- Claim C2, counterexample to the claim as stated.  The claim says the
silent data-change branch emits a synthetic start+terminal event *pair*.  In
this concrete tick (tracked success with data `1`, observed success with data
`2`) the branch fires, yet the hook delivers exactly one message — an
`operation-complete` — and no `operation-start` at all. -/
theorem silent_data_change_no_pair :
    forwardAll true
      (processQuery 100
        ⟨[("q1", ⟨OperationStatus.success, 0, some 1, none, ⟨OpKind.query, 0, 0⟩⟩)],
         [], 1⟩
        ⟨"q1", none, NetworkStatus.ready, some 2, none⟩).2
        = [DevtoolMessage.operationComplete ⟨OpKind.query, 1, 100⟩ (some 2) 50 false]
    ∧ (forwardAll true
        (processQuery 100
          ⟨[("q1", ⟨OperationStatus.success, 0, some 1, none, ⟨OpKind.query, 0, 0⟩⟩)],
           [], 1⟩
          ⟨"q1", none, NetworkStatus.ready, some 2, none⟩).2).map msgKind
        = [LifecycleKind.terminal] := by
  decide

/-- Claim C2 (amended).  When a tracked query stays in the success phase
across two consecutive poll ticks but its underlying data value has changed,
the tracker mints a new identity (distinct from the tracked one), assigns the
fixed estimated duration 50 with the timestamp backdated by it, and emits a
*single* synthetic completed operation — one terminal `operation-complete`
event, with no accompanying start — representing the update as its own
operation. -/
theorem silent_data_change_single_terminal (now : Nat) (s : AdapterState)
    (q : QueryDetails) (t : TrackedQuery)
    (hget : jsMapGet s.trackedQueries q.id = some t)
    (hst : t.status = OperationStatus.success)
    (hcur : classifyStatus q.error q.networkStatus = OperationStatus.success)
    (hdata : t.data ≠ jsOr q.data q.cachedData)
    (hctr : t.operationId.counter < s.operationCounter) :
    ∃ op : GraphQLOperation,
      (processQuery now s q).2 = [op] ∧
      op.id = ⟨OpKind.query, s.operationCounter, now⟩ ∧
      op.id ≠ t.operationId ∧
      op.duration = some 50 ∧
      op.timestamp = now - 50 ∧
      op.status = OperationStatus.success ∧
      (∀ r, forwardOperation r op =
        [DevtoolMessage.operationComplete op.id op.data 50 op.fromCache]) ∧
      jsMapGet (processQuery now s q).1.trackedQueries q.id =
        some ⟨OperationStatus.success, now, jsOr q.data q.cachedData, q.error,
          op.id⟩ := by
  have heq := @processQuery_data_change_eq now s q t hget (hst.trans hcur.symm)
    hcur hdata
  refine ⟨convertQueryToOperation q (now - 50) (some 50)
    ⟨.query, s.operationCounter, now⟩ (jsOr q.data q.cachedData),
    by rw [heq], rfl, ?_, rfl, rfl, hcur, ?_, ?_⟩
  · intro hh
    have hcc : s.operationCounter = t.operationId.counter :=
      congrArg OpId.counter hh
    omega
  · intro r
    rw [forwardOperation_success hcur r]
    rfl
  · rw [heq]
    exact jsMapGet_set_self _ _ _

/-- Witness for C2 (amended) at a concrete input. -/
theorem silent_data_change_single_terminal_witness :
    ∃ op : GraphQLOperation,
      (processQuery 100
        ⟨[("q1", ⟨OperationStatus.success, 0, some 1, none, ⟨OpKind.query, 0, 0⟩⟩)],
         [], 1⟩
        ⟨"q1", none, NetworkStatus.ready, some 2, none⟩).2 = [op] ∧
      op.id = ⟨OpKind.query, 1, 100⟩ ∧
      op.id ≠ (⟨OpKind.query, 0, 0⟩ : OpId) ∧
      op.duration = some 50 ∧
      op.timestamp = 100 - 50 ∧
      op.status = OperationStatus.success ∧
      (∀ r, forwardOperation r op =
        [DevtoolMessage.operationComplete op.id op.data 50 op.fromCache]) ∧
      jsMapGet (processQuery 100
        ⟨[("q1", ⟨OperationStatus.success, 0, some 1, none, ⟨OpKind.query, 0, 0⟩⟩)],
         [], 1⟩
        ⟨"q1", none, NetworkStatus.ready, some 2, none⟩).1.trackedQueries "q1" =
        some ⟨OperationStatus.success, 100, jsOr (some 2) none, none, op.id⟩ :=
  silent_data_change_single_terminal 100
    ⟨[("q1", ⟨OperationStatus.success, 0, some 1, none, ⟨OpKind.query, 0, 0⟩⟩)],
     [], 1⟩
    ⟨"q1", none, NetworkStatus.ready, some 2, none⟩
    ⟨OperationStatus.success, 0, some 1, none, ⟨OpKind.query, 0, 0⟩⟩
    (by decide) (by decide) (by decide) (by decide) (by decide)

/-- Claim C3, counterexample to the claim as stated.  The claim says a result
with no errors and response data present is classified `success`; here a
result with data `5` and no errors but network status `refetch` is classified
`loading`. -/
theorem status_classification_data_irrelevant :
    ((⟨"q1", none, NetworkStatus.refetch, some 5, none⟩ : QueryDetails).error
        = none)
    ∧ ((⟨"q1", none, NetworkStatus.refetch, some 5, none⟩ : QueryDetails).data
        = some 5)
    ∧ (convertQueryToOperation ⟨"q1", none, NetworkStatus.refetch, some 5, none⟩
        0 none ⟨OpKind.query, 0, 0⟩ (some 5)).status
        = OperationStatus.loading := by
  decide

/-- Claim C3 (amended).  The status classification of an observed result
depends only on the error field and the network status, never on the presence
of response data: `error` whenever the result carries an error; otherwise
`loading` exactly when the network status is one of the in-flight statuses
(`loading`, `setVariables`, `fetchMore`, `refetch`); otherwise `success` —
even when no response data is present. -/
theorem status_classification_rule (q : QueryDetails) (startTime : Nat)
    (dur : Option Nat) (oid : OpId) (rd : Option Value) :
    (convertQueryToOperation q startTime dur oid rd).status
        = classifyStatus q.error q.networkStatus
    ∧ ∀ (e : Option GErr) (ns : NetworkStatus),
        ((classifyStatus e ns = OperationStatus.error) ↔ e.isSome)
        ∧ ((classifyStatus e ns = OperationStatus.loading) ↔
            (e = none ∧ (ns = NetworkStatus.loading ∨ ns = NetworkStatus.setVariables ∨
              ns = NetworkStatus.fetchMore ∨ ns = NetworkStatus.refetch)))
        ∧ ((classifyStatus e ns = OperationStatus.success) ↔
            (e = none ∧ ¬(ns = NetworkStatus.loading ∨ ns = NetworkStatus.setVariables ∨
              ns = NetworkStatus.fetchMore ∨ ns = NetworkStatus.refetch))) := by
  refine ⟨rfl, ?_⟩
  intro e ns
  refine ⟨?_, ?_, ?_⟩ <;> cases e <;> cases ns <;> simp [classifyStatus]

/-- Claim C4.  While recording is paused, loading (`operation-start`)
notifications are dropped outright — nothing is sent, nothing queued — while
succeeded and failed operations are still forwarded as their terminal
messages, identically to when recording is on. -/
theorem pause_gate_behavior (op : GraphQLOperation) :
    (op.status = OperationStatus.loading → forwardOperation false op = [])
    ∧ (op.status = OperationStatus.success → ∀ r, forwardOperation r op =
        [DevtoolMessage.operationComplete op.id op.data (op.duration.getD 0)
          op.fromCache])
    ∧ (op.status = OperationStatus.error → ∀ r, forwardOperation r op =
        [DevtoolMessage.operationError op.id op.error (op.duration.getD 0)]) :=
  ⟨fun h => (forwardOperation_loading h false).trans rfl,
   fun h r => forwardOperation_success h r,
   fun h r => forwardOperation_errored h r⟩

/-- Witness for C4 at concrete operations: a loading operation is dropped
while paused; success and error operations still go through while paused. -/
theorem pause_gate_behavior_witness :
    forwardOperation false
      ⟨⟨OpKind.query, 0, 0⟩, OpKind.query, OperationStatus.loading, 0, none,
        none, none, false⟩ = []
    ∧ forwardOperation false
        ⟨⟨OpKind.query, 1, 0⟩, OpKind.query, OperationStatus.success, 0,
          some 10, some 1, none, false⟩ =
        [DevtoolMessage.operationComplete ⟨OpKind.query, 1, 0⟩ (some 1) 10 false]
    ∧ forwardOperation false
        ⟨⟨OpKind.query, 2, 0⟩, OpKind.query, OperationStatus.error, 0, some 10,
          none, some "boom", false⟩ =
        [DevtoolMessage.operationError ⟨OpKind.query, 2, 0⟩ (some "boom") 10] :=
  ⟨(pause_gate_behavior _).1 rfl,
   (pause_gate_behavior _).2.1 rfl false,
   (pause_gate_behavior _).2.2 rfl false⟩

/-- Claim C5.  A tracked query whose phase transitions from settled back to
in-flight (a refetch) gets a freshly minted identity, distinct from the
tracked one, and a start event is emitted under that new identity; on the
concrete four-tick trace loading→ready→refetch→ready both the original
execution and the refetch yield their own complete start/terminal pair under
distinct identities. -/
theorem refetch_mints_new_identity (now : Nat) (s : AdapterState)
    (q : QueryDetails) (t : TrackedQuery)
    (hget : jsMapGet s.trackedQueries q.id = some t)
    (hsettled : t.status ≠ OperationStatus.loading)
    (hcur : classifyStatus q.error q.networkStatus = OperationStatus.loading)
    (hctr : t.operationId.counter < s.operationCounter) :
    (∃ op : GraphQLOperation,
      (processQuery now s q).2 = [op] ∧
      op.id = ⟨OpKind.query, s.operationCounter, now⟩ ∧
      op.id ≠ t.operationId ∧
      op.status = OperationStatus.loading ∧
      forwardOperation true op = [DevtoolMessage.operationStart op] ∧
      jsMapGet (processQuery now s q).1.trackedQueries q.id =
        some ⟨OperationStatus.loading, now, jsOr q.data q.cachedData, q.error,
          op.id⟩)
    ∧ (lifecycleFor ⟨OpKind.query, 0, 10⟩
        (runTicks initialAdapterState
          [⟨10, true, [⟨"q1", none, .loading, none, none⟩], []⟩,
           ⟨20, true, [⟨"q1", none, .ready, some 1, none⟩], []⟩,
           ⟨30, true, [⟨"q1", none, .refetch, some 1, none⟩], []⟩,
           ⟨40, true, [⟨"q1", none, .ready, some 1, none⟩], []⟩]).2
          = [LifecycleKind.start, LifecycleKind.terminal]
      ∧ lifecycleFor ⟨OpKind.query, 1, 30⟩
          (runTicks initialAdapterState
            [⟨10, true, [⟨"q1", none, .loading, none, none⟩], []⟩,
             ⟨20, true, [⟨"q1", none, .ready, some 1, none⟩], []⟩,
             ⟨30, true, [⟨"q1", none, .refetch, some 1, none⟩], []⟩,
             ⟨40, true, [⟨"q1", none, .ready, some 1, none⟩], []⟩]).2
          = [LifecycleKind.start, LifecycleKind.terminal]
      ∧ (⟨OpKind.query, 0, 10⟩ : OpId) ≠ ⟨OpKind.query, 1, 30⟩
      ∧ (runTicks initialAdapterState
          [⟨10, true, [⟨"q1", none, .loading, none, none⟩], []⟩,
           ⟨20, true, [⟨"q1", none, .ready, some 1, none⟩], []⟩,
           ⟨30, true, [⟨"q1", none, .refetch, some 1, none⟩], []⟩,
           ⟨40, true, [⟨"q1", none, .ready, some 1, none⟩], []⟩]).2.length = 4) := by
  constructor
  · have heq := @processQuery_restart_eq now s q t hget hsettled hcur
    refine ⟨convertQueryToOperation q now none
      ⟨.query, s.operationCounter, now⟩ (jsOr q.data q.cachedData),
      by rw [heq], rfl, ?_, hcur, (forwardOperation_loading hcur true).trans rfl,
      ?_⟩
    · intro hh
      have hcc : s.operationCounter = t.operationId.counter :=
        congrArg OpId.counter hh
      omega
    · rw [heq]
      exact jsMapGet_set_self _ _ _
  · decide

/-- Witness for C5 at a concrete input (a query tracked as succeeded is
observed refetching). -/
theorem refetch_mints_new_identity_witness :
    (∃ op : GraphQLOperation,
      (processQuery 30
        ⟨[("q1", ⟨OperationStatus.success, 0, some 1, none, ⟨OpKind.query, 0, 5⟩⟩)],
         [], 1⟩
        ⟨"q1", none, NetworkStatus.refetch, some 1, none⟩).2 = [op] ∧
      op.id = ⟨OpKind.query, 1, 30⟩ ∧
      op.id ≠ (⟨OpKind.query, 0, 5⟩ : OpId) ∧
      op.status = OperationStatus.loading ∧
      forwardOperation true op = [DevtoolMessage.operationStart op] ∧
      jsMapGet (processQuery 30
        ⟨[("q1", ⟨OperationStatus.success, 0, some 1, none, ⟨OpKind.query, 0, 5⟩⟩)],
         [], 1⟩
        ⟨"q1", none, NetworkStatus.refetch, some 1, none⟩).1.trackedQueries "q1" =
        some ⟨OperationStatus.loading, 30, jsOr (some 1) none, none, op.id⟩)
    ∧ (lifecycleFor ⟨OpKind.query, 0, 10⟩
        (runTicks initialAdapterState
          [⟨10, true, [⟨"q1", none, .loading, none, none⟩], []⟩,
           ⟨20, true, [⟨"q1", none, .ready, some 1, none⟩], []⟩,
           ⟨30, true, [⟨"q1", none, .refetch, some 1, none⟩], []⟩,
           ⟨40, true, [⟨"q1", none, .ready, some 1, none⟩], []⟩]).2
          = [LifecycleKind.start, LifecycleKind.terminal]
      ∧ lifecycleFor ⟨OpKind.query, 1, 30⟩
          (runTicks initialAdapterState
            [⟨10, true, [⟨"q1", none, .loading, none, none⟩], []⟩,
             ⟨20, true, [⟨"q1", none, .ready, some 1, none⟩], []⟩,
             ⟨30, true, [⟨"q1", none, .refetch, some 1, none⟩], []⟩,
             ⟨40, true, [⟨"q1", none, .ready, some 1, none⟩], []⟩]).2
          = [LifecycleKind.start, LifecycleKind.terminal]
      ∧ (⟨OpKind.query, 0, 10⟩ : OpId) ≠ ⟨OpKind.query, 1, 30⟩
      ∧ (runTicks initialAdapterState
          [⟨10, true, [⟨"q1", none, .loading, none, none⟩], []⟩,
           ⟨20, true, [⟨"q1", none, .ready, some 1, none⟩], []⟩,
           ⟨30, true, [⟨"q1", none, .refetch, some 1, none⟩], []⟩,
           ⟨40, true, [⟨"q1", none, .ready, some 1, none⟩], []⟩]).2.length = 4) :=
  refetch_mints_new_identity 30
    ⟨[("q1", ⟨OperationStatus.success, 0, some 1, none, ⟨OpKind.query, 0, 5⟩⟩)],
     [], 1⟩
    ⟨"q1", none, NetworkStatus.refetch, some 1, none⟩
    ⟨OperationStatus.success, 0, some 1, none, ⟨OpKind.query, 0, 5⟩⟩
    (by decide) (by decide) (by decide) (by decide)

/-- Claim C6.  A query id seen for the first time during a poll tick: when its
current phase is in-flight, a fresh identity is minted and a start event is
emitted in that same tick; when it is already settled, no event at all is
emitted, but the query is registered in the tracking state. -/
theorem first_seen_query_behavior (now : Nat) (s : AdapterState)
    (q : QueryDetails) (hget : jsMapGet s.trackedQueries q.id = none) :
    (classifyStatus q.error q.networkStatus = OperationStatus.loading →
      ∃ op : GraphQLOperation,
        (processQuery now s q).2 = [op] ∧
        op.id = ⟨OpKind.query, s.operationCounter, now⟩ ∧
        op.status = OperationStatus.loading ∧
        forwardOperation true op = [DevtoolMessage.operationStart op] ∧
        jsMapGet (processQuery now s q).1.trackedQueries q.id =
          some ⟨OperationStatus.loading, now, jsOr q.data q.cachedData, q.error,
            op.id⟩)
    ∧ (classifyStatus q.error q.networkStatus ≠ OperationStatus.loading →
        (processQuery now s q).2 = [] ∧
        jsMapGet (processQuery now s q).1.trackedQueries q.id =
          some ⟨classifyStatus q.error q.networkStatus, now,
            jsOr q.data q.cachedData, q.error,
            ⟨OpKind.query, s.operationCounter, now⟩⟩) := by
  have heq := @processQuery_first_seen_eq now s q hget
  constructor
  · intro hc
    refine ⟨convertQueryToOperation q now none
      ⟨.query, s.operationCounter, now⟩ (jsOr q.data q.cachedData),
      by rw [heq, if_pos hc], rfl, hc,
      (forwardOperation_loading hc true).trans rfl, ?_⟩
    rw [heq, hc]
    exact jsMapGet_set_self _ _ _
  · intro hc
    refine ⟨by rw [heq, if_neg hc], ?_⟩
    rw [heq]
    exact jsMapGet_set_self _ _ _

/-- Witness for C6 at concrete inputs: a first-seen in-flight query and a
first-seen already-settled query. -/
theorem first_seen_query_behavior_witness :
    (∃ op : GraphQLOperation,
      (processQuery 7 initialAdapterState
        ⟨"q1", none, NetworkStatus.loading, none, none⟩).2 = [op] ∧
      op.id = ⟨OpKind.query, 0, 7⟩ ∧
      op.status = OperationStatus.loading ∧
      forwardOperation true op = [DevtoolMessage.operationStart op] ∧
      jsMapGet (processQuery 7 initialAdapterState
        ⟨"q1", none, NetworkStatus.loading, none, none⟩).1.trackedQueries "q1" =
        some ⟨OperationStatus.loading, 7, jsOr none none, none, op.id⟩)
    ∧ ((processQuery 7 initialAdapterState
        ⟨"q2", none, NetworkStatus.ready, some 3, none⟩).2 = [] ∧
      jsMapGet (processQuery 7 initialAdapterState
        ⟨"q2", none, NetworkStatus.ready, some 3, none⟩).1.trackedQueries "q2" =
        some ⟨classifyStatus none NetworkStatus.ready, 7, jsOr (some 3) none,
          none, ⟨OpKind.query, 0, 7⟩⟩) :=
  ⟨(first_seen_query_behavior 7 initialAdapterState
      ⟨"q1", none, NetworkStatus.loading, none, none⟩ (by decide)).1 (by decide),
   (first_seen_query_behavior 7 initialAdapterState
      ⟨"q2", none, NetworkStatus.ready, some 3, none⟩ (by decide)).2 (by decide)⟩

/-- Claim C7, counterexample to the claim as stated.  The claim concludes
that *no* operation event is emitted during a tick in which *any* exception
is thrown while inspecting the client's internals.  Here only `getQueries`
throws (caught inside it, yielding an empty enumeration), while the mutation
store is healthy and holds one already-completed mutation: the very same tick
still emits that mutation's completed operation, and the hook delivers an
`operation-complete` to consumers. -/
theorem poll_exception_partial_emits :
    (pollTickRaw 100 (Except.error "shape drift")
      (Except.ok [⟨false, none⟩]) initialAdapterState).2
      = [convertMutationToOperation 100 0 ⟨false, none⟩]
    ∧ forwardAll true (pollTickRaw 100 (Except.error "shape drift")
        (Except.ok [⟨false, none⟩]) initialAdapterState).2
      = [DevtoolMessage.operationComplete ⟨OpKind.mutation, 0, 100⟩ none 100
          false] := by
  decide

/-- Claim C7 (amended).  An exception raised while inspecting the client's
internal structures during a poll tick is caught inside the tick — the
embedded polling functions are total in the raised error, so nothing
propagates to the host.  The polling function whose accessor threw emits no
operation event that tick: a failed query enumeration yields no events (its
only state effect is dropping the tracked queries, which can no longer be
enumerated), and a failed mutation enumeration yields no events and leaves
the state untouched.  Events of the *other*, unaffected polling function may
still be emitted in the same tick; only when every inspection fails is no
operation event emitted at all, and subsequent ticks proceed normally from
the resulting state. -/
theorem poll_exception_contained (now : Nat) (e e' : GErr) (s : AdapterState) :
    pollQueries now (getQueriesCaught (Except.error e)) s
        = ({ s with trackedQueries := [] }, [])
    ∧ pollMutations now (getMutationsCaught (Except.error e')) s = (s, [])
    ∧ (pollTickRaw now (Except.error e) (Except.error e') s).2 = []
    ∧ (pollTickRaw now (Except.error e) (Except.error e') s).1
        = { s with trackedQueries := [] } := by
  refine ⟨?_, rfl, rfl, ?_⟩ <;>
    simp [pollTickRaw, pollQueries, pollMutations, processQueries,
      processMutations, getQueriesCaught, getMutationsCaught]

/-- Claim C8.  Whenever the introspection request fails, returns no data, or
the conversion of its result fails, `getSchema` resolves to the empty
catalogue — empty `types` list and no root-type summaries — instead of
rejecting. -/
theorem schema_failure_empty_catalogue
    (result : Except GErr (Option IntroData))
    (build : IntroData → Except GErr SchemaCatalog)
    (hfail : ∀ d, result = Except.ok (some d) → (build d).toOption = none) :
    getSchema result build =
      { queryType := none, mutationType := none, subscriptionType := none,
        types := [] } := by
  cases result with
  | error err => rfl
  | ok od =>
    cases od with
    | none => rfl
    | some d =>
      have hd := hfail d rfl
      cases hb : build d with
      | error err => simp [getSchema, hb]
      | ok sc =>
        rw [hb] at hd
        simp [Except.toOption] at hd

/-- Witness for C8: a rejected introspection request, and separately a
conversion failure, both yield the empty catalogue. -/
theorem schema_failure_empty_catalogue_witness :
    getSchema (Except.error "network down") (fun _ => Except.error "bad shape")
        = { queryType := none, mutationType := none, subscriptionType := none,
            types := [] }
    ∧ getSchema (Except.ok (some 3)) (fun _ => Except.error "bad shape")
        = { queryType := none, mutationType := none, subscriptionType := none,
            types := [] } :=
  ⟨schema_failure_empty_catalogue _ _ (fun _ h => nomatch h),
   schema_failure_empty_catalogue _ _ (fun _ _ => rfl)⟩

/-- Claim C10.  Every cache entry produced by `getCacheSnapshot` has its `id`
equal to its `key`, and its `typename` equal to the record's `__typename`
discriminator when that field is present (and to `undefined` when the record
or the discriminator is absent). -/
theorem cache_entry_id_key_typename
    (extracted : Except GErr (List (String × Option CacheRecord))) (now : Nat)
    (e : CacheEntry) (he : e ∈ getCacheSnapshot extracted now) :
    e.id = e.key ∧ e.typename = e.data.bind CacheRecord.typename := by
  cases extracted with
  | error err => simp [getCacheSnapshot] at he
  | ok cacheData =>
    simp only [getCacheSnapshot] at he
    rcases List.mem_map.1 he with ⟨kv, hkv, rfl⟩
    exact ⟨rfl, rfl⟩

/-- Witness for C10 on a concrete snapshot (one record with a `__typename`,
one null record). -/
theorem cache_entry_id_key_typename_witness :
    (⟨"User:1", "User:1", some "User", some ⟨some "User", 7⟩, 5⟩ :
        CacheEntry).id =
      (⟨"User:1", "User:1", some "User", some ⟨some "User", 7⟩, 5⟩ :
        CacheEntry).key
    ∧ (⟨"User:1", "User:1", some "User", some ⟨some "User", 7⟩, 5⟩ :
        CacheEntry).typename =
      (⟨"User:1", "User:1", some "User", some ⟨some "User", 7⟩, 5⟩ :
        CacheEntry).data.bind CacheRecord.typename :=
  cache_entry_id_key_typename
    (Except.ok [("User:1", some ⟨some "User", 7⟩), ("ROOT_QUERY", none)]) 5
    ⟨"User:1", "User:1", some "User", some ⟨some "User", 7⟩, 5⟩
    (by decide)

end GraphQLDevtool

namespace GraphQLDevtool.Intercept

theorem jsMapSet_length_le {m : List (String × StoredOp)} {k : String}
    (v : StoredOp) : (jsMapSet m k v).length ≤ m.length + 1 := by
  induction m with
  | nil => simp [jsMapSet]
  | cons p rest ih =>
    obtain ⟨k', v'⟩ := p
    by_cases hk : k' = k
    · simp [jsMapSet, hk]
    · simp only [jsMapSet, hk, if_false, List.length_cons]
      omega

theorem notifyEvict_length_le {maxOperations : Nat}
    {m : List (String × StoredOp)} (hm : m.length ≤ maxOperations + 1) :
    (notifyEvict maxOperations m).length ≤ maxOperations := by
  unfold notifyEvict
  split
  · cases m with
    | nil => simp
    | cons p rest => simp only [List.length_cons] at hm ⊢; omega
  · omega

theorem jsMapErase_length_le (m : List (String × StoredOp)) (k : String) :
    (jsMapErase m k).length ≤ m.length := by
  induction m with
  | nil => simp [jsMapErase]
  | cons p rest ih =>
    obtain ⟨k', v'⟩ := p
    by_cases hk : k' = k
    · simp [jsMapErase, hk]
    · simp only [jsMapErase, hk, if_false, List.length_cons]
      omega

theorem stepLink_length_le {maxOperations : Nat}
    {m : List (String × StoredOp)} (h : m.length ≤ maxOperations)
    (ev : LinkEvent) : (stepLink maxOperations m ev).length ≤ maxOperations := by
  cases ev with
  | start id entry =>
    exact notifyEvict_length_le
      (Nat.le_trans (jsMapSet_length_le entry) (Nat.succ_le_succ h))
  | result id =>
    simp only [stepLink]
    cases hg : jsMapGet m id with
    | none => exact h
    | some v =>
      exact Nat.le_trans (jsMapErase_length_le _ _)
        (notifyEvict_length_le (Nat.le_trans h (Nat.le_succ _)))

/-- Claim C9.  The interception adapter's `operationMap` never holds more than
`maxOperations` entries: every link callback preserves the bound, so a whole
run from a within-bound map stays within bound; and when the map is full and
a new operation starts, the oldest (first-inserted) unresolved entry is
evicted while the new entry is retained. -/
theorem intercept_operation_map_bounded (maxOperations : Nat)
    (m : List (String × StoredOp)) (evs : List LinkEvent)
    (h : m.length ≤ maxOperations) :
    (runLink maxOperations m evs).length ≤ maxOperations
    ∧ (∀ (id : String) (entry : StoredOp),
        m.length = maxOperations → jsMapGet m id = none → 1 ≤ maxOperations →
        stepLink maxOperations m (.start id entry) = m.tail ++ [(id, entry)]) := by
  constructor
  · induction evs generalizing m with
    | nil => exact h
    | cons ev rest ih => exact ih _ (stepLink_length_le h ev)
  · intro id entry hlen hget hmax
    cases m with
    | nil =>
      rw [List.length_nil] at hlen
      omega
    | cons p m' =>
      show notifyEvict maxOperations (jsMapSet (p :: m') id entry) = _
      rw [jsMapSet_eq_append entry hget]
      unfold notifyEvict
      rw [if_pos (by simp only [List.length_append, List.length_cons] at hlen ⊢; omega)]
      rfl

/-- Witness for C9: a full two-entry map under `maxOperations = 2`; a run of
link events stays within the bound, and a new start evicts the oldest entry
`"a"` while retaining the new entry `"c"`. -/
theorem intercept_operation_map_bounded_witness :
    (runLink 2
      [("a", ⟨0, ⟨⟨OpKind.query, 0, 0⟩, OpKind.query, OperationStatus.loading,
        0, none, none, none, false⟩⟩),
       ("b", ⟨1, ⟨⟨OpKind.query, 1, 0⟩, OpKind.query, OperationStatus.loading,
        0, none, none, none, false⟩⟩)]
      [.start "c" ⟨2, ⟨⟨OpKind.query, 2, 0⟩, OpKind.query,
        OperationStatus.loading, 0, none, none, none, false⟩⟩,
       .result "b"]).length ≤ 2
    ∧ (∀ (id : String) (entry : StoredOp),
        ([("a", (⟨0, ⟨⟨OpKind.query, 0, 0⟩, OpKind.query,
            OperationStatus.loading, 0, none, none, none, false⟩⟩ : StoredOp)),
          ("b", ⟨1, ⟨⟨OpKind.query, 1, 0⟩, OpKind.query,
            OperationStatus.loading, 0, none, none, none, false⟩⟩)] :
          List (String × StoredOp)).length = 2 →
        jsMapGet [("a", (⟨0, ⟨⟨OpKind.query, 0, 0⟩, OpKind.query,
            OperationStatus.loading, 0, none, none, none, false⟩⟩ : StoredOp)),
          ("b", ⟨1, ⟨⟨OpKind.query, 1, 0⟩, OpKind.query,
            OperationStatus.loading, 0, none, none, none, false⟩⟩)] id = none →
        1 ≤ 2 →
        stepLink 2
          [("a", ⟨0, ⟨⟨OpKind.query, 0, 0⟩, OpKind.query,
            OperationStatus.loading, 0, none, none, none, false⟩⟩),
           ("b", ⟨1, ⟨⟨OpKind.query, 1, 0⟩, OpKind.query,
            OperationStatus.loading, 0, none, none, none, false⟩⟩)]
          (.start id entry) =
          [("a", ⟨0, ⟨⟨OpKind.query, 0, 0⟩, OpKind.query,
            OperationStatus.loading, 0, none, none, none, false⟩⟩),
           ("b", ⟨1, ⟨⟨OpKind.query, 1, 0⟩, OpKind.query,
            OperationStatus.loading, 0, none, none, none, false⟩⟩)].tail
            ++ [(id, entry)]) :=
  intercept_operation_map_bounded 2
    [("a", ⟨0, ⟨⟨OpKind.query, 0, 0⟩, OpKind.query, OperationStatus.loading,
      0, none, none, none, false⟩⟩),
     ("b", ⟨1, ⟨⟨OpKind.query, 1, 0⟩, OpKind.query, OperationStatus.loading,
      0, none, none, none, false⟩⟩)]
    [.start "c" ⟨2, ⟨⟨OpKind.query, 2, 0⟩, OpKind.query,
      OperationStatus.loading, 0, none, none, none, false⟩⟩,
     .result "b"]
    (by decide)

end GraphQLDevtool.Intercept
